import Mathlib

/-!
Verification of the Fluid-sim water-volume simulator
(`src/ConsoleApplication1.cpp`, `src/Fluid_sim.cpp`; the two files agree up
to comments).  The C++ core is embedded shallowly: `float` arithmetic is
modelled over `ℝ` where the code uses `sinf`/`sqrtf` (the wave and normal
computations) and over `ℚ` for the recording timer, `std::vector` becomes
`List`, and each imperative write-once loop over the flat vertex buffer
becomes a `List.ofFn` pass over the flat index.
-/

namespace FluidSim

/-- The C++ `vertex` struct: position `x y z` and normal `nx ny nz`. -/
@[ext]
structure vertex where
  x : ℝ
  y : ℝ
  z : ℝ
  nx : ℝ
  ny : ℝ
  nz : ℝ

noncomputable instance : Inhabited vertex := ⟨⟨0, 0, 0, 0, 0, 0⟩⟩

/-- `glm::normalize` on a 2-vector: divide by the Euclidean length. -/
noncomputable def normalize2 (vx vy : ℝ) : ℝ × ℝ :=
  let len := Real.sqrt (vx * vx + vy * vy)
  (vx / len, vy / len)

/-- `glm::normalize` on a 3-vector: divide by the Euclidean length. -/
noncomputable def normalize3 (vx vy vz : ℝ) : ℝ × ℝ × ℝ :=
  let len := Real.sqrt (vx * vx + vy * vy + vz * vz)
  (vx / len, vy / len, vz / len)

/-- The wave height written into a top-surface vertex by
`watervolume::updatewaves`: two sine waves with the source's constants,
evaluated at the vertex's stored horizontal position `(px, pz)`. -/
noncomputable def waveY (time px pz : ℝ) : ℝ :=
  let amplitude1 : ℝ := 0.6
  let amplitude2 : ℝ := 0.3
  let frequency1 : ℝ := 0.8
  let frequency2 : ℝ := 0.6
  let speed1 : ℝ := 0.3
  let speed2 : ℝ := 0.2
  let dir1 := normalize2 1.0 0.2
  let dir2 := normalize2 0.2 1.0
  let dot1 := dir1.1 * (px - speed1 * time) + dir1.2 * (pz - speed1 * time)
  let dot2 := dir2.1 * (px - speed2 * time) + dir2.2 * (pz - speed2 * time)
  let wave1 := amplitude1 * Real.sin (frequency1 * dot1)
  let wave2 := amplitude2 * Real.sin (frequency2 * dot2)
  wave1 + wave2

/-- One vertex of `watervolume::buildmesh`: flat index `i` in
`[0, W*D)` is the top surface (grid cell `x = i % W`, `z = i / W`,
positions from the normalized grid coordinates, `y = 0`, normal `(0,1,0)`),
and `[W*D, 2*W*D)` is the bottom copy at `y = -thickness`, normal
`(0,-1,0)`. -/
noncomputable def buildVertex (W D : ℕ) (width depth thickness : ℝ) (i : ℕ) : vertex :=
  if i < W * D then
    let x := i % W
    let z := i / W
    let fx := (x : ℝ) / ((W : ℝ) - 1)
    let fz := (z : ℝ) / ((D : ℝ) - 1)
    let px := fx * width - 0.5 * width
    let pz := fz * depth - 0.5 * depth
    { x := px, y := 0, z := pz, nx := 0, ny := 1, nz := 0 }
  else
    let j := i - W * D
    let x := j % W
    let z := j / W
    let fx := (x : ℝ) / ((W : ℝ) - 1)
    let fz := (z : ℝ) / ((D : ℝ) - 1)
    let px := fx * width - 0.5 * width
    let pz := fz * depth - 0.5 * depth
    { x := px, y := -thickness, z := pz, nx := 0, ny := -1, nz := 0 }

/-- The vertex buffer built by `watervolume::buildmesh`:
`vertices.resize(gridwidth * griddepth * 2)` followed by the two
write-once fill loops. -/
noncomputable def buildVertices (W D : ℕ) (width depth thickness : ℝ) : List vertex :=
  List.ofFn fun i : Fin (W * D * 2) => buildVertex W D width depth thickness (i : ℕ)

/-- Top-surface triangles of `buildmesh` (two per cell). -/
def topTriangles (ts W D : ℕ) : List ℕ :=
  (List.range (D - 1)).flatMap fun z =>
    (List.range (W - 1)).flatMap fun x =>
      let i0 := ts + (x + z * W)
      let i1 := ts + ((x + 1) + z * W)
      let i2 := ts + (x + (z + 1) * W)
      let i3 := ts + ((x + 1) + (z + 1) * W)
      [i0, i1, i2, i1, i3, i2]

/-- Bottom-surface triangles of `buildmesh` (reversed winding). -/
def bottomTriangles (bs W D : ℕ) : List ℕ :=
  (List.range (D - 1)).flatMap fun z =>
    (List.range (W - 1)).flatMap fun x =>
      let i0 := bs + (x + z * W)
      let i1 := bs + ((x + 1) + z * W)
      let i2 := bs + (x + (z + 1) * W)
      let i3 := bs + ((x + 1) + (z + 1) * W)
      [i0, i2, i1, i1, i2, i3]

/-- The `addsidequad` lambda of `buildmesh`. -/
def addsidequad (topa topb bottoma bottomb : ℕ) : List ℕ :=
  [topa, topb, bottoma, topb, bottomb, bottoma]

/-- Left side wall of `buildmesh`. -/
def leftSide (ts bs W D : ℕ) : List ℕ :=
  (List.range (D - 1)).flatMap fun z =>
    addsidequad (ts + (0 + z * W)) (ts + (0 + (z + 1) * W))
      (bs + (0 + z * W)) (bs + (0 + (z + 1) * W))

/-- Right side wall of `buildmesh` (winding spelled out in the source). -/
def rightSide (ts bs W D : ℕ) : List ℕ :=
  (List.range (D - 1)).flatMap fun z =>
    let topa := ts + ((W - 1) + z * W)
    let topb := ts + ((W - 1) + (z + 1) * W)
    let bottoma := bs + ((W - 1) + z * W)
    let bottomb := bs + ((W - 1) + (z + 1) * W)
    [topb, topa, bottomb, topa, bottoma, bottomb]

/-- Front side wall of `buildmesh`. -/
def frontSide (ts bs W : ℕ) : List ℕ :=
  (List.range (W - 1)).flatMap fun x =>
    let topa := ts + (x + 0 * W)
    let topb := ts + ((x + 1) + 0 * W)
    let bottoma := bs + (x + 0 * W)
    let bottomb := bs + ((x + 1) + 0 * W)
    [topb, topa, bottomb, topa, bottoma, bottomb]

/-- Back side wall of `buildmesh`. -/
def backSide (ts bs W D : ℕ) : List ℕ :=
  (List.range (W - 1)).flatMap fun x =>
    addsidequad (ts + (x + (D - 1) * W)) (ts + ((x + 1) + (D - 1) * W))
      (bs + (x + (D - 1) * W)) (bs + ((x + 1) + (D - 1) * W))

/-- The index buffer pushed by `buildmesh`, in source order: top
triangles, bottom triangles, then left/right/front/back walls. -/
def buildIndices (ts bs W D : ℕ) : List ℕ :=
  topTriangles ts W D ++ bottomTriangles bs W D ++ leftSide ts bs W D ++
    rightSide ts bs W D ++ frontSide ts bs W ++ backSide ts bs W D

/-- The `watervolume` class: grid resolution, block offsets, physical
extents, and the vertex/index buffers. -/
@[ext]
structure watervolume where
  gridwidth : ℕ
  griddepth : ℕ
  topstart : ℕ
  bottomstart : ℕ
  width : ℝ
  depth : ℝ
  thickness : ℝ
  vertices : List vertex
  indices : List ℕ

/-- The `watervolume(gw, gd, w, d, t)` constructor: store the parameters
and run `buildmesh` (which sets `topstart = 0`,
`bottomstart = gridwidth * griddepth` and fills both buffers).  The
constructor performs no validation of its arguments. -/
noncomputable def mkwatervolume (gw gd : ℕ) (w d t : ℝ) : watervolume :=
  { gridwidth := gw, griddepth := gd, topstart := 0, bottomstart := gw * gd,
    width := w, depth := d, thickness := t,
    vertices := buildVertices gw gd w d t,
    indices := buildIndices 0 (gw * gd) gw gd }

/-- First `updatewaves` loop: every top-surface vertex
(`idx = topstart + x + z*gridwidth`, all cells) gets
`y = wave1 + wave2` evaluated at its stored `(x, z)` position. -/
noncomputable def updateTopY (ts W D : ℕ) (time : ℝ) (vs : List vertex) : List vertex :=
  List.ofFn fun i : Fin vs.length =>
    let v := vs.get i
    if ts ≤ (i : ℕ) ∧ (i : ℕ) < ts + W * D then
      { v with y := waveY time v.x v.z }
    else v

/-- Second `updatewaves` loop: every bottom-surface vertex gets the
matching top vertex's `y` minus the thickness. -/
noncomputable def updateBottomY (ts bs W D : ℕ) (thickness : ℝ) (vs : List vertex) :
    List vertex :=
  List.ofFn fun i : Fin vs.length =>
    let v := vs.get i
    if bs ≤ (i : ℕ) ∧ (i : ℕ) < bs + W * D then
      { v with y := (vs.getD (ts + ((i : ℕ) - bs)) v).y - thickness }
    else v

/-- Third `updatewaves` loop: central finite differences give the normal
`normalize(-dx, 1, -dz)` at every interior top vertex (`1 ≤ x < W-1`,
`1 ≤ z < D-1`); border vertices are skipped. -/
noncomputable def updateTopNormals (ts W D : ℕ) (vs : List vertex) : List vertex :=
  List.ofFn fun i : Fin vs.length =>
    let v := vs.get i
    let j := (i : ℕ) - ts
    if ts ≤ (i : ℕ) ∧ j < W * D ∧ 1 ≤ j % W ∧ j % W < W - 1 ∧
        1 ≤ j / W ∧ j / W < D - 1 then
      let yl := (vs.getD ((i : ℕ) - 1) v).y
      let yr := (vs.getD ((i : ℕ) + 1) v).y
      let yd := (vs.getD ((i : ℕ) - W) v).y
      let yu := (vs.getD ((i : ℕ) + W) v).y
      let dx := (yr - yl) * 0.5
      let dz := (yu - yd) * 0.5
      let n := normalize3 (-dx) 1 (-dz)
      { v with nx := n.1, ny := n.2.1, nz := n.2.2 }
    else v

/-- Fourth `updatewaves` loop: the bottom-surface analogue, with normal
`normalize(dx, -1, dz)` computed from the bottom surface's own heights. -/
noncomputable def updateBottomNormals (bs W D : ℕ) (vs : List vertex) : List vertex :=
  List.ofFn fun i : Fin vs.length =>
    let v := vs.get i
    let j := (i : ℕ) - bs
    if bs ≤ (i : ℕ) ∧ j < W * D ∧ 1 ≤ j % W ∧ j % W < W - 1 ∧
        1 ≤ j / W ∧ j / W < D - 1 then
      let yl := (vs.getD ((i : ℕ) - 1) v).y
      let yr := (vs.getD ((i : ℕ) + 1) v).y
      let yd := (vs.getD ((i : ℕ) - W) v).y
      let yu := (vs.getD ((i : ℕ) + W) v).y
      let dx := (yr - yl) * 0.5
      let dz := (yu - yd) * 0.5
      let n := normalize3 dx (-1) dz
      { v with nx := n.1, ny := n.2.1, nz := n.2.2 }
    else v

/-- `watervolume::updatewaves(time)`: the four in-place loops, in source
order, acting on the vertex buffer; nothing else is touched. -/
noncomputable def updatewaves (m : watervolume) (time : ℝ) : watervolume :=
  let vs1 := updateTopY m.topstart m.gridwidth m.griddepth time m.vertices
  let vs2 := updateBottomY m.topstart m.bottomstart m.gridwidth m.griddepth m.thickness vs1
  let vs3 := updateTopNormals m.topstart m.gridwidth m.griddepth vs2
  let vs4 := updateBottomNormals m.bottomstart m.gridwidth m.griddepth vs3
  { m with vertices := vs4 }

/-- The recording globals: `g_recording`, `g_recordStartTime`,
`g_recordedFrames`.  Simulation time is a `float` in the source, modelled
here as `ℚ` so the `>= 16.0f` comparison stays decidable. -/
structure RecordingState where
  g_recording : Bool
  g_recordStartTime : ℚ
  g_recordedFrames : ℕ
deriving Repr, DecidableEq

/-- The `GLFW_KEY_S` branch of `key_callback`: if not recording, start
recording, capture the current simulation time, and zero the frame
counter; provided the guard `if (!g_recording)` fails, nothing changes. -/
def key_callback_s (g_globalSimTime : ℚ) (s : RecordingState) : RecordingState :=
  if !s.g_recording then
    { g_recording := true, g_recordStartTime := g_globalSimTime, g_recordedFrames := 0 }
  else s

/-- Observable outcome of the per-frame `if (g_recording)` block in
`main`: the new global state, the frame number handed to `saveFrame` (if
any), and the completion event (total frames, frame rate) passed on to the
encoder invocation (if any). -/
structure TickResult where
  state : RecordingState
  savedFrame : Option ℕ
  completion : Option (ℕ × ℚ)
deriving Repr, DecidableEq

/-- The per-frame recording block in `main`'s render loop: while
recording, `saveFrame(g_recordedFrames)` then `g_recordedFrames++`; if
`g_globalSimTime - g_recordStartTime >= 16.0f`, stop recording and emit
the completion with `fps = g_recordedFrames / 16.0f`. -/
def recordTick (g_globalSimTime : ℚ) (s : RecordingState) : TickResult :=
  if s.g_recording then
    let saved := s.g_recordedFrames
    let s1 : RecordingState := { s with g_recordedFrames := s.g_recordedFrames + 1 }
    if g_globalSimTime - s1.g_recordStartTime ≥ 16 then
      let fps : ℚ := (s1.g_recordedFrames : ℚ) / 16
      { state := { s1 with g_recording := false }, savedFrame := some saved,
        completion := some (s1.g_recordedFrames, fps) }
    else
      { state := s1, savedFrame := some saved, completion := none }
  else
    { state := s, savedFrame := none, completion := none }

/-- The row flip in `saveFrame`: row `y` of the flipped buffer is row
`height - 1 - y` of the bottom-up source buffer.  Each row (one
`memcpy` of `window_width * 3` bytes) is modelled as one list element. -/
def flipRows (height : ℕ) (pixels : List (List ℕ)) : List (List ℕ) :=
  List.ofFn fun y : Fin height => pixels.getD (height - 1 - (y : ℕ)) []

/-- Zero padding of `%04d` in `sprintf_s(filename, "frame_%04d.png", n)`
for a non-negative frame number. -/
def pad4 (n : ℕ) : String :=
  let s := toString n
  if s.length < 4 then String.mk (List.replicate (4 - s.length) '0') ++ s else s

/-- The artifact identifier produced by `saveFrame`. -/
def frameFilename (frameNumber : ℕ) : String :=
  "frame_" ++ pad4 frameNumber ++ ".png"

/-! ### Length and entry characterizations of the update passes -/

theorem updateTopY_length (ts W D : ℕ) (t : ℝ) (vs : List vertex) :
    (updateTopY ts W D t vs).length = vs.length :=
  List.length_ofFn _

theorem updateBottomY_length (ts bs W D : ℕ) (th : ℝ) (vs : List vertex) :
    (updateBottomY ts bs W D th vs).length = vs.length :=
  List.length_ofFn _

theorem updateTopNormals_length (ts W D : ℕ) (vs : List vertex) :
    (updateTopNormals ts W D vs).length = vs.length :=
  List.length_ofFn _

theorem updateBottomNormals_length (bs W D : ℕ) (vs : List vertex) :
    (updateBottomNormals bs W D vs).length = vs.length :=
  List.length_ofFn _

theorem updatewaves_vertices_length (m : watervolume) (t : ℝ) :
    (updatewaves m t).vertices.length = m.vertices.length := by
  simp [updatewaves, updateBottomNormals_length, updateTopNormals_length,
    updateBottomY_length, updateTopY_length]

theorem updateTopY_getD (ts W D : ℕ) (t : ℝ) (vs : List vertex) (i : ℕ)
    (d : vertex) (h : i < vs.length) :
    (updateTopY ts W D t vs).getD i d =
      (if ts ≤ i ∧ i < ts + W * D then
        { vs.getD i d with y := waveY t (vs.getD i d).x (vs.getD i d).z }
      else vs.getD i d) := by
  rw [List.getD_eq_getElem _ _ (by rw [updateTopY_length]; exact h),
    List.getD_eq_getElem _ _ h]
  simp only [updateTopY, List.getElem_ofFn, List.get_eq_getElem]

theorem updateBottomY_getD (ts bs W D : ℕ) (th : ℝ) (vs : List vertex) (i : ℕ)
    (d : vertex) (h : i < vs.length) :
    (updateBottomY ts bs W D th vs).getD i d =
      (if bs ≤ i ∧ i < bs + W * D then
        { vs.getD i d with y := (vs.getD (ts + (i - bs)) (vs.getD i d)).y - th }
      else vs.getD i d) := by
  rw [List.getD_eq_getElem _ _ (by rw [updateBottomY_length]; exact h),
    List.getD_eq_getElem _ _ h]
  simp only [updateBottomY, List.getElem_ofFn, List.get_eq_getElem]

theorem updateTopNormals_getD (ts W D : ℕ) (vs : List vertex) (i : ℕ)
    (d : vertex) (h : i < vs.length) :
    (updateTopNormals ts W D vs).getD i d =
      (if ts ≤ i ∧ i - ts < W * D ∧ 1 ≤ (i - ts) % W ∧ (i - ts) % W < W - 1 ∧
          1 ≤ (i - ts) / W ∧ (i - ts) / W < D - 1 then
        let v := vs.getD i d
        let dx := ((vs.getD (i + 1) v).y - (vs.getD (i - 1) v).y) * 0.5
        let dz := ((vs.getD (i + W) v).y - (vs.getD (i - W) v).y) * 0.5
        let n := normalize3 (-dx) 1 (-dz)
        { v with nx := n.1, ny := n.2.1, nz := n.2.2 }
      else vs.getD i d) := by
  rw [List.getD_eq_getElem _ _ (by rw [updateTopNormals_length]; exact h),
    List.getD_eq_getElem _ _ h]
  simp only [updateTopNormals, List.getElem_ofFn, List.get_eq_getElem]

theorem updateBottomNormals_getD (bs W D : ℕ) (vs : List vertex) (i : ℕ)
    (d : vertex) (h : i < vs.length) :
    (updateBottomNormals bs W D vs).getD i d =
      (if bs ≤ i ∧ i - bs < W * D ∧ 1 ≤ (i - bs) % W ∧ (i - bs) % W < W - 1 ∧
          1 ≤ (i - bs) / W ∧ (i - bs) / W < D - 1 then
        let v := vs.getD i d
        let dx := ((vs.getD (i + 1) v).y - (vs.getD (i - 1) v).y) * 0.5
        let dz := ((vs.getD (i + W) v).y - (vs.getD (i - W) v).y) * 0.5
        let n := normalize3 dx (-1) dz
        { v with nx := n.1, ny := n.2.1, nz := n.2.2 }
      else vs.getD i d) := by
  rw [List.getD_eq_getElem _ _ (by rw [updateBottomNormals_length]; exact h),
    List.getD_eq_getElem _ _ h]
  simp only [updateBottomNormals, List.getElem_ofFn, List.get_eq_getElem]

/-! ### Component preservation: each pass writes only its own fields -/

theorem updateTopY_preserves (ts W D : ℕ) (t : ℝ) (vs : List vertex) (i : ℕ)
    (d : vertex) :
    ((updateTopY ts W D t vs).getD i d).x = (vs.getD i d).x ∧
    ((updateTopY ts W D t vs).getD i d).z = (vs.getD i d).z ∧
    ((updateTopY ts W D t vs).getD i d).nx = (vs.getD i d).nx ∧
    ((updateTopY ts W D t vs).getD i d).ny = (vs.getD i d).ny ∧
    ((updateTopY ts W D t vs).getD i d).nz = (vs.getD i d).nz := by
  by_cases h : i < vs.length
  · rw [updateTopY_getD ts W D t vs i d h]
    split <;> simp
  · rw [List.getD_eq_default _ _ (by rw [updateTopY_length]; omega),
      List.getD_eq_default _ _ (by omega)]
    simp

theorem updateBottomY_preserves (ts bs W D : ℕ) (th : ℝ) (vs : List vertex) (i : ℕ)
    (d : vertex) :
    ((updateBottomY ts bs W D th vs).getD i d).x = (vs.getD i d).x ∧
    ((updateBottomY ts bs W D th vs).getD i d).z = (vs.getD i d).z ∧
    ((updateBottomY ts bs W D th vs).getD i d).nx = (vs.getD i d).nx ∧
    ((updateBottomY ts bs W D th vs).getD i d).ny = (vs.getD i d).ny ∧
    ((updateBottomY ts bs W D th vs).getD i d).nz = (vs.getD i d).nz := by
  by_cases h : i < vs.length
  · rw [updateBottomY_getD ts bs W D th vs i d h]
    split <;> simp
  · rw [List.getD_eq_default _ _ (by rw [updateBottomY_length]; omega),
      List.getD_eq_default _ _ (by omega)]
    simp

theorem updateTopNormals_preserves (ts W D : ℕ) (vs : List vertex) (i : ℕ)
    (d : vertex) :
    ((updateTopNormals ts W D vs).getD i d).x = (vs.getD i d).x ∧
    ((updateTopNormals ts W D vs).getD i d).y = (vs.getD i d).y ∧
    ((updateTopNormals ts W D vs).getD i d).z = (vs.getD i d).z := by
  by_cases h : i < vs.length
  · rw [updateTopNormals_getD ts W D vs i d h]
    split <;> simp
  · rw [List.getD_eq_default _ _ (by rw [updateTopNormals_length]; omega),
      List.getD_eq_default _ _ (by omega)]
    simp

theorem updateBottomNormals_preserves (bs W D : ℕ) (vs : List vertex) (i : ℕ)
    (d : vertex) :
    ((updateBottomNormals bs W D vs).getD i d).x = (vs.getD i d).x ∧
    ((updateBottomNormals bs W D vs).getD i d).y = (vs.getD i d).y ∧
    ((updateBottomNormals bs W D vs).getD i d).z = (vs.getD i d).z := by
  by_cases h : i < vs.length
  · rw [updateBottomNormals_getD bs W D vs i d h]
    split <;> simp
  · rw [List.getD_eq_default _ _ (by rw [updateBottomNormals_length]; omega),
      List.getD_eq_default _ _ (by omega)]
    simp

theorem updatewaves_preserves_xz (m : watervolume) (t : ℝ) (i : ℕ) (d : vertex) :
    ((updatewaves m t).vertices.getD i d).x = (m.vertices.getD i d).x ∧
    ((updatewaves m t).vertices.getD i d).z = (m.vertices.getD i d).z := by
  simp only [updatewaves]
  constructor
  · rw [(updateBottomNormals_preserves _ _ _ _ i d).1,
      (updateTopNormals_preserves _ _ _ _ i d).1,
      (updateBottomY_preserves _ _ _ _ _ _ i d).1,
      (updateTopY_preserves _ _ _ _ _ i d).1]
  · rw [(updateBottomNormals_preserves _ _ _ _ i d).2.2,
      (updateTopNormals_preserves _ _ _ _ i d).2.2,
      (updateBottomY_preserves _ _ _ _ _ _ i d).2.1,
      (updateTopY_preserves _ _ _ _ _ i d).2.1]

/-! ### Entry values of the constructed and updated mesh -/

theorem getD_congr_default (l : List vertex) (i : ℕ) (d₁ d₂ : vertex)
    (h : i < l.length) : l.getD i d₁ = l.getD i d₂ := by
  rw [List.getD_eq_getElem _ _ h, List.getD_eq_getElem _ _ h]

theorem mkwatervolume_vertices_length (gw gd : ℕ) (w d t : ℝ) :
    (mkwatervolume gw gd w d t).vertices.length = gw * gd * 2 := by
  simp [mkwatervolume, buildVertices]

theorem mkwatervolume_vertices_getD (gw gd : ℕ) (w d t : ℝ) (i : ℕ) (dflt : vertex)
    (h : i < gw * gd * 2) :
    (mkwatervolume gw gd w d t).vertices.getD i dflt = buildVertex gw gd w d t i := by
  rw [List.getD_eq_getElem _ _ (by rw [mkwatervolume_vertices_length]; exact h)]
  simp only [mkwatervolume, buildVertices, List.getElem_ofFn]

/-- After `updatewaves`, a top-surface entry's height is the wave function
of its stored horizontal position. -/
theorem updatewaves_top_y (m : watervolume) (t : ℝ) (i : ℕ) (d : vertex)
    (hts : m.topstart = 0) (hbs : m.bottomstart = m.gridwidth * m.griddepth)
    (hlen : m.vertices.length = m.gridwidth * m.griddepth * 2)
    (hi : i < m.gridwidth * m.griddepth) :
    ((updatewaves m t).vertices.getD i d).y =
      waveY t ((m.vertices.getD i d)).x ((m.vertices.getD i d)).z := by
  have hi2 : i < m.vertices.length := by rw [hlen]; omega
  simp only [updatewaves]
  rw [(updateBottomNormals_preserves _ _ _ _ i d).2.1,
    (updateTopNormals_preserves _ _ _ _ i d).2.1,
    updateBottomY_getD _ _ _ _ _ _ i d (by rw [updateTopY_length]; exact hi2),
    if_neg (by rw [hbs]; omega),
    updateTopY_getD _ _ _ _ _ i d hi2, if_pos (by rw [hts]; omega)]

/-- After `updatewaves`, a bottom-surface entry's height is the matching
top entry's wave height minus the thickness. -/
theorem updatewaves_bottom_y (m : watervolume) (t : ℝ) (i : ℕ) (d : vertex)
    (hts : m.topstart = 0) (hbs : m.bottomstart = m.gridwidth * m.griddepth)
    (hlen : m.vertices.length = m.gridwidth * m.griddepth * 2)
    (hi1 : m.gridwidth * m.griddepth ≤ i) (hi2 : i < m.gridwidth * m.griddepth * 2) :
    ((updatewaves m t).vertices.getD i d).y =
      waveY t ((m.vertices.getD (i - m.gridwidth * m.griddepth) d)).x
        ((m.vertices.getD (i - m.gridwidth * m.griddepth) d)).z - m.thickness := by
  have hi3 : i < m.vertices.length := by rw [hlen]; omega
  have hj : i - m.gridwidth * m.griddepth < m.vertices.length := by rw [hlen]; omega
  have hj1 : i - m.gridwidth * m.griddepth < m.gridwidth * m.griddepth := by omega
  simp only [updatewaves]
  rw [(updateBottomNormals_preserves _ _ _ _ i d).2.1,
    (updateTopNormals_preserves _ _ _ _ i d).2.1,
    updateBottomY_getD _ _ _ _ _ _ i d (by rw [updateTopY_length]; exact hi3),
    if_pos (by rw [hbs]; omega)]
  rw [hts, hbs, Nat.zero_add,
    getD_congr_default (updateTopY 0 m.gridwidth m.griddepth t m.vertices)
      (i - m.gridwidth * m.griddepth)
      ((updateTopY 0 m.gridwidth m.griddepth t m.vertices).getD i d) d
      (by rw [updateTopY_length]; exact hj),
    updateTopY_getD 0 m.gridwidth m.griddepth t m.vertices
      (i - m.gridwidth * m.griddepth) d hj,
    if_pos (show 0 ≤ i - m.gridwidth * m.griddepth ∧
      i - m.gridwidth * m.griddepth < 0 + m.gridwidth * m.griddepth from by omega)]

/-! ### Normals of the updated mesh -/

theorem interior_arith {W D i : ℕ} (hx1 : 1 ≤ i % W) (hx2 : i % W < W - 1)
    (hz1 : 1 ≤ i / W) (hz2 : i / W < D - 1) :
    1 ≤ i ∧ W ≤ i ∧ i + W < W * D ∧ i + 1 < W * D ∧ 2 ≤ W ∧ 2 ≤ D := by
  have hW : 0 < W := by
    rcases Nat.eq_zero_or_pos W with h | h
    · subst h; simp at hx2
    · exact h
  have h1 : i < (D - 1) * W := (Nat.div_lt_iff_lt_mul hW).mp hz2
  have h2 : (D - 1) * W = D * W - 1 * W := Nat.sub_mul D 1 W
  have h3 : W ≤ D * W := Nat.le_mul_of_pos_left W (by omega)
  have h4 : W * D = D * W := Nat.mul_comm W D
  have h5 : W * (i / W) + i % W = i := Nat.div_add_mod i W
  have h6 : W * 1 ≤ W * (i / W) := Nat.mul_le_mul_left W hz1
  omega

/-- After `updatewaves`, an interior top-surface entry's normal is the
normalized `(-dx, 1, -dz)` with central differences taken over the
updated heights. -/
theorem updatewaves_top_normal (m : watervolume) (t : ℝ) (i : ℕ) (d : vertex)
    (hts : m.topstart = 0) (hbs : m.bottomstart = m.gridwidth * m.griddepth)
    (hlen : m.vertices.length = m.gridwidth * m.griddepth * 2)
    (hx1 : 1 ≤ i % m.gridwidth) (hx2 : i % m.gridwidth < m.gridwidth - 1)
    (hz1 : 1 ≤ i / m.gridwidth) (hz2 : i / m.gridwidth < m.griddepth - 1) :
    ((((updatewaves m t).vertices.getD i d).nx,
      ((updatewaves m t).vertices.getD i d).ny,
      ((updatewaves m t).vertices.getD i d).nz) : ℝ × ℝ × ℝ) =
      normalize3
        (-((((updatewaves m t).vertices.getD (i + 1) d).y -
            ((updatewaves m t).vertices.getD (i - 1) d).y) * 0.5))
        1
        (-((((updatewaves m t).vertices.getD (i + m.gridwidth) d).y -
            ((updatewaves m t).vertices.getD (i - m.gridwidth) d).y) * 0.5)) := by
  obtain ⟨ha1, ha2, ha3, ha4, _, _⟩ := interior_arith hx1 hx2 hz1 hz2
  have hi : i < m.gridwidth * m.griddepth := by omega
  have hvs2len : (updateBottomY m.topstart m.bottomstart m.gridwidth m.griddepth
      m.thickness (updateTopY m.topstart m.gridwidth m.griddepth t
        m.vertices)).length = m.gridwidth * m.griddepth * 2 := by
    rw [updateBottomY_length, updateTopY_length, hlen]
  have hylem : ∀ j, ((updatewaves m t).vertices.getD j d).y =
      ((updateBottomY m.topstart m.bottomstart m.gridwidth m.griddepth m.thickness
        (updateTopY m.topstart m.gridwidth m.griddepth t m.vertices)).getD j d).y := by
    intro j
    simp only [updatewaves]
    rw [(updateBottomNormals_preserves _ _ _ _ j d).2.1,
      (updateTopNormals_preserves _ _ _ _ j d).2.1]
  rw [hylem, hylem, hylem, hylem]
  simp only [updatewaves]
  rw [updateBottomNormals_getD _ _ _ _ i d
      (by rw [updateTopNormals_length, hvs2len]; omega),
    if_neg (by rw [hbs]; omega),
    updateTopNormals_getD _ _ _ _ i d (by rw [hvs2len]; omega),
    if_pos (by rw [hts]; refine ⟨by omega, by rw [Nat.sub_zero]; omega,
      by rw [Nat.sub_zero]; exact hx1, by rw [Nat.sub_zero]; exact hx2,
      by rw [Nat.sub_zero]; exact hz1, by rw [Nat.sub_zero]; exact hz2⟩)]
  dsimp only
  have hcongr : ∀ j, j < m.gridwidth * m.griddepth * 2 →
      ((updateBottomY m.topstart m.bottomstart m.gridwidth m.griddepth m.thickness
        (updateTopY m.topstart m.gridwidth m.griddepth t m.vertices)).getD j
        ((updateBottomY m.topstart m.bottomstart m.gridwidth m.griddepth m.thickness
          (updateTopY m.topstart m.gridwidth m.griddepth t m.vertices)).getD i d)) =
      ((updateBottomY m.topstart m.bottomstart m.gridwidth m.griddepth m.thickness
        (updateTopY m.topstart m.gridwidth m.griddepth t m.vertices)).getD j d) := by
    intro j hj
    exact getD_congr_default _ j _ d (by rw [hvs2len]; exact hj)
  rw [hcongr (i + 1) (by omega), hcongr (i - 1) (by omega),
    hcongr (i + m.gridwidth) (by omega), hcongr (i - m.gridwidth) (by omega)]

/-- After `updatewaves`, an interior bottom-surface entry's normal is the
normalized `(dx, -1, dz)` with central differences taken over the bottom
surface's own updated heights. -/
theorem updatewaves_bottom_normal (m : watervolume) (t : ℝ) (i : ℕ) (d : vertex)
    (hts : m.topstart = 0) (hbs : m.bottomstart = m.gridwidth * m.griddepth)
    (hlen : m.vertices.length = m.gridwidth * m.griddepth * 2)
    (hbot : m.gridwidth * m.griddepth ≤ i)
    (hx1 : 1 ≤ (i - m.gridwidth * m.griddepth) % m.gridwidth)
    (hx2 : (i - m.gridwidth * m.griddepth) % m.gridwidth < m.gridwidth - 1)
    (hz1 : 1 ≤ (i - m.gridwidth * m.griddepth) / m.gridwidth)
    (hz2 : (i - m.gridwidth * m.griddepth) / m.gridwidth < m.griddepth - 1) :
    ((((updatewaves m t).vertices.getD i d).nx,
      ((updatewaves m t).vertices.getD i d).ny,
      ((updatewaves m t).vertices.getD i d).nz) : ℝ × ℝ × ℝ) =
      normalize3
        ((((updatewaves m t).vertices.getD (i + 1) d).y -
            ((updatewaves m t).vertices.getD (i - 1) d).y) * 0.5)
        (-1)
        ((((updatewaves m t).vertices.getD (i + m.gridwidth) d).y -
            ((updatewaves m t).vertices.getD (i - m.gridwidth) d).y) * 0.5) := by
  obtain ⟨ha1, ha2, ha3, ha4, _, _⟩ := interior_arith hx1 hx2 hz1 hz2
  have hi : i < m.gridwidth * m.griddepth * 2 := by omega
  have hvs3len : (updateTopNormals m.topstart m.gridwidth m.griddepth
      (updateBottomY m.topstart m.bottomstart m.gridwidth m.griddepth m.thickness
        (updateTopY m.topstart m.gridwidth m.griddepth t
          m.vertices))).length = m.gridwidth * m.griddepth * 2 := by
    rw [updateTopNormals_length, updateBottomY_length, updateTopY_length, hlen]
  have hylem : ∀ j, ((updatewaves m t).vertices.getD j d).y =
      ((updateTopNormals m.topstart m.gridwidth m.griddepth
        (updateBottomY m.topstart m.bottomstart m.gridwidth m.griddepth m.thickness
          (updateTopY m.topstart m.gridwidth m.griddepth t m.vertices))).getD j d).y := by
    intro j
    simp only [updatewaves]
    rw [(updateBottomNormals_preserves _ _ _ _ j d).2.1]
  rw [hylem, hylem, hylem, hylem]
  simp only [updatewaves]
  rw [updateBottomNormals_getD _ _ _ _ i d (by rw [hvs3len]; omega),
    if_pos (by rw [hbs]; exact ⟨hbot, by omega, hx1, hx2, hz1, hz2⟩)]
  dsimp only
  have hcongr : ∀ j, j < m.gridwidth * m.griddepth * 2 →
      ((updateTopNormals m.topstart m.gridwidth m.griddepth
        (updateBottomY m.topstart m.bottomstart m.gridwidth m.griddepth m.thickness
          (updateTopY m.topstart m.gridwidth m.griddepth t m.vertices))).getD j
        ((updateTopNormals m.topstart m.gridwidth m.griddepth
          (updateBottomY m.topstart m.bottomstart m.gridwidth m.griddepth m.thickness
            (updateTopY m.topstart m.gridwidth m.griddepth t m.vertices))).getD i d)) =
      ((updateTopNormals m.topstart m.gridwidth m.griddepth
        (updateBottomY m.topstart m.bottomstart m.gridwidth m.griddepth m.thickness
          (updateTopY m.topstart m.gridwidth m.griddepth t m.vertices))).getD j d) := by
    intro j hj
    exact getD_congr_default _ j _ d (by rw [hvs3len]; exact hj)
  rw [hcongr (i + 1) (by omega), hcongr (i - 1) (by omega),
    hcongr (i + m.gridwidth) (by omega), hcongr (i - m.gridwidth) (by omega)]

/-- Entries whose cell lies outside both interior regions (in particular
all border-row and border-column vertices) keep their previous normal
through `updatewaves`. -/
theorem updatewaves_normals_unchanged (m : watervolume) (t : ℝ) (i : ℕ) (d : vertex)
    (hts : m.topstart = 0) (hbs : m.bottomstart = m.gridwidth * m.griddepth)
    (h1 : ¬(i < m.gridwidth * m.griddepth ∧ 1 ≤ i % m.gridwidth ∧
      i % m.gridwidth < m.gridwidth - 1 ∧ 1 ≤ i / m.gridwidth ∧
      i / m.gridwidth < m.griddepth - 1))
    (h2 : ¬(m.gridwidth * m.griddepth ≤ i ∧
      i - m.gridwidth * m.griddepth < m.gridwidth * m.griddepth ∧
      1 ≤ (i - m.gridwidth * m.griddepth) % m.gridwidth ∧
      (i - m.gridwidth * m.griddepth) % m.gridwidth < m.gridwidth - 1 ∧
      1 ≤ (i - m.gridwidth * m.griddepth) / m.gridwidth ∧
      (i - m.gridwidth * m.griddepth) / m.gridwidth < m.griddepth - 1)) :
    ((updatewaves m t).vertices.getD i d).nx = (m.vertices.getD i d).nx ∧
    ((updatewaves m t).vertices.getD i d).ny = (m.vertices.getD i d).ny ∧
    ((updatewaves m t).vertices.getD i d).nz = (m.vertices.getD i d).nz := by
  by_cases hrange : i < m.vertices.length
  · simp only [updatewaves]
    rw [updateBottomNormals_getD _ _ _ _ i d
        (by rw [updateTopNormals_length, updateBottomY_length, updateTopY_length]
            exact hrange),
      if_neg (by rw [hbs]; exact h2),
      updateTopNormals_getD _ _ _ _ i d
        (by rw [updateBottomY_length, updateTopY_length]; exact hrange),
      if_neg (by rw [hts]; simp only [Nat.zero_le, Nat.sub_zero, true_and]; exact h1)]
    refine ⟨?_, ?_, ?_⟩
    · rw [(updateBottomY_preserves _ _ _ _ _ _ i d).2.2.1,
        (updateTopY_preserves _ _ _ _ _ i d).2.2.1]
    · rw [(updateBottomY_preserves _ _ _ _ _ _ i d).2.2.2.1,
        (updateTopY_preserves _ _ _ _ _ i d).2.2.2.1]
    · rw [(updateBottomY_preserves _ _ _ _ _ _ i d).2.2.2.2,
        (updateTopY_preserves _ _ _ _ _ i d).2.2.2.2]
  · rw [List.getD_eq_default _ _
        (by rw [updatewaves_vertices_length]; omega),
      List.getD_eq_default _ _ (by omega)]
    exact ⟨rfl, rfl, rfl⟩

/-- A vector produced by `normalize3` from a nonzero input has unit
Euclidean length. -/
theorem normalize3_unit_length (a b c : ℝ) (h : a * a + b * b + c * c ≠ 0) :
    Real.sqrt ((normalize3 a b c).1 ^ 2 + (normalize3 a b c).2.1 ^ 2 +
      (normalize3 a b c).2.2 ^ 2) = 1 := by
  have hpos : 0 < a * a + b * b + c * c :=
    lt_of_le_of_ne (add_nonneg (add_nonneg (mul_self_nonneg a)
      (mul_self_nonneg b)) (mul_self_nonneg c)) (Ne.symm h)
  have hL : 0 < Real.sqrt (a * a + b * b + c * c) := Real.sqrt_pos.mpr hpos
  have hL2 : Real.sqrt (a * a + b * b + c * c) ^ 2 = a * a + b * b + c * c :=
    Real.sq_sqrt hpos.le
  simp only [normalize3]
  have hsum : (a / Real.sqrt (a * a + b * b + c * c)) ^ 2 +
      (b / Real.sqrt (a * a + b * b + c * c)) ^ 2 +
      (c / Real.sqrt (a * a + b * b + c * c)) ^ 2 = 1 := by
    field_simp
    linarith [hL2]
  rw [hsum, Real.sqrt_one]

/-! ### Size and bounds of the index buffer -/

theorem length_flatMap_range {α : Type} (n k : ℕ) (f : ℕ → List α)
    (hf : ∀ a, (f a).length = k) : ((List.range n).flatMap f).length = n * k := by
  induction n with
  | zero => simp
  | succ m ih =>
      rw [List.range_succ]
      simp only [List.flatMap_append, List.length_append, ih, List.flatMap_cons,
        List.flatMap_nil, List.append_nil, hf]
      ring

theorem topTriangles_length (ts W D : ℕ) :
    (topTriangles ts W D).length = (D - 1) * ((W - 1) * 6) := by
  refine length_flatMap_range _ _ _ fun z => ?_
  exact length_flatMap_range _ _ _ fun x => rfl

theorem bottomTriangles_length (bs W D : ℕ) :
    (bottomTriangles bs W D).length = (D - 1) * ((W - 1) * 6) := by
  refine length_flatMap_range _ _ _ fun z => ?_
  exact length_flatMap_range _ _ _ fun x => rfl

theorem leftSide_length (ts bs W D : ℕ) :
    (leftSide ts bs W D).length = (D - 1) * 6 :=
  length_flatMap_range _ _ _ fun z => rfl

theorem rightSide_length (ts bs W D : ℕ) :
    (rightSide ts bs W D).length = (D - 1) * 6 :=
  length_flatMap_range _ _ _ fun z => rfl

theorem frontSide_length (ts bs W : ℕ) :
    (frontSide ts bs W).length = (W - 1) * 6 :=
  length_flatMap_range _ _ _ fun x => rfl

theorem backSide_length (ts bs W D : ℕ) :
    (backSide ts bs W D).length = (W - 1) * 6 :=
  length_flatMap_range _ _ _ fun x => rfl

theorem buildIndices_length (ts bs W D : ℕ) :
    (buildIndices ts bs W D).length =
      12 * (W - 1) * (D - 1) + 6 * 2 * (D - 1) + 6 * 2 * (W - 1) := by
  simp only [buildIndices, List.length_append, topTriangles_length,
    bottomTriangles_length, leftSide_length, rightSide_length,
    frontSide_length, backSide_length]
  ring

theorem cell_lt (u v W D : ℕ) (hu : u < W) (hv : v < D) : u + v * W < W * D := by
  have h2 : (v + 1) * W ≤ D * W := Nat.mul_le_mul_right W hv
  have h3 : (v + 1) * W = v * W + W := by ring
  have h4 : W * D = D * W := Nat.mul_comm W D
  omega

theorem buildIndices_bounded (W D : ℕ) (hW : 1 ≤ W) (hD : 1 ≤ D) :
    ∀ i ∈ buildIndices 0 (W * D) W D, i < 2 * (W * D) := by
  intro i hi
  simp only [buildIndices, List.mem_append] at hi
  rcases hi with ((((hi | hi) | hi) | hi) | hi) | hi
  · simp only [topTriangles, List.mem_flatMap, List.mem_range] at hi
    obtain ⟨z, hz, x, hx, hmem⟩ := hi
    have c1 := cell_lt x z W D (by omega) (by omega)
    have c2 := cell_lt (x + 1) z W D (by omega) (by omega)
    have c3 := cell_lt x (z + 1) W D (by omega) (by omega)
    have c4 := cell_lt (x + 1) (z + 1) W D (by omega) (by omega)
    simp only [List.mem_cons, List.not_mem_nil, or_false] at hmem
    rcases hmem with rfl | rfl | rfl | rfl | rfl | rfl <;> omega
  · simp only [bottomTriangles, List.mem_flatMap, List.mem_range] at hi
    obtain ⟨z, hz, x, hx, hmem⟩ := hi
    have c1 := cell_lt x z W D (by omega) (by omega)
    have c2 := cell_lt (x + 1) z W D (by omega) (by omega)
    have c3 := cell_lt x (z + 1) W D (by omega) (by omega)
    have c4 := cell_lt (x + 1) (z + 1) W D (by omega) (by omega)
    simp only [List.mem_cons, List.not_mem_nil, or_false] at hmem
    rcases hmem with rfl | rfl | rfl | rfl | rfl | rfl <;> omega
  · simp only [leftSide, addsidequad, List.mem_flatMap, List.mem_range] at hi
    obtain ⟨z, hz, hmem⟩ := hi
    have c1 := cell_lt 0 z W D (by omega) (by omega)
    have c2 := cell_lt 0 (z + 1) W D (by omega) (by omega)
    simp only [List.mem_cons, List.not_mem_nil, or_false] at hmem
    rcases hmem with rfl | rfl | rfl | rfl | rfl | rfl <;> omega
  · simp only [rightSide, List.mem_flatMap, List.mem_range] at hi
    obtain ⟨z, hz, hmem⟩ := hi
    have c1 := cell_lt (W - 1) z W D (by omega) (by omega)
    have c2 := cell_lt (W - 1) (z + 1) W D (by omega) (by omega)
    simp only [List.mem_cons, List.not_mem_nil, or_false] at hmem
    rcases hmem with rfl | rfl | rfl | rfl | rfl | rfl <;> omega
  · simp only [frontSide, List.mem_flatMap, List.mem_range] at hi
    obtain ⟨x, hx, hmem⟩ := hi
    have c1 := cell_lt x 0 W D (by omega) (by omega)
    have c2 := cell_lt (x + 1) 0 W D (by omega) (by omega)
    simp only [List.mem_cons, List.not_mem_nil, or_false] at hmem
    rcases hmem with rfl | rfl | rfl | rfl | rfl | rfl <;> omega
  · simp only [backSide, addsidequad, List.mem_flatMap, List.mem_range] at hi
    obtain ⟨x, hx, hmem⟩ := hi
    have c1 := cell_lt x (D - 1) W D (by omega) (by omega)
    have c2 := cell_lt (x + 1) (D - 1) W D (by omega) (by omega)
    simp only [List.mem_cons, List.not_mem_nil, or_false] at hmem
    rcases hmem with rfl | rfl | rfl | rfl | rfl | rfl <;> omega

/-! ### Projection helpers -/

theorem mkwatervolume_gridwidth (gw gd : ℕ) (w d t : ℝ) :
    (mkwatervolume gw gd w d t).gridwidth = gw := rfl

theorem mkwatervolume_griddepth (gw gd : ℕ) (w d t : ℝ) :
    (mkwatervolume gw gd w d t).griddepth = gd := rfl

theorem mkwatervolume_topstart (gw gd : ℕ) (w d t : ℝ) :
    (mkwatervolume gw gd w d t).topstart = 0 := rfl

theorem mkwatervolume_bottomstart (gw gd : ℕ) (w d t : ℝ) :
    (mkwatervolume gw gd w d t).bottomstart = gw * gd := rfl

theorem mkwatervolume_thickness (gw gd : ℕ) (w d t : ℝ) :
    (mkwatervolume gw gd w d t).thickness = t := rfl

theorem mkwatervolume_indices (gw gd : ℕ) (w d t : ℝ) :
    (mkwatervolume gw gd w d t).indices = buildIndices 0 (gw * gd) gw gd := rfl

theorem updatewaves_gridwidth (m : watervolume) (t : ℝ) :
    (updatewaves m t).gridwidth = m.gridwidth := rfl

theorem updatewaves_griddepth (m : watervolume) (t : ℝ) :
    (updatewaves m t).griddepth = m.griddepth := rfl

theorem updatewaves_topstart (m : watervolume) (t : ℝ) :
    (updatewaves m t).topstart = m.topstart := rfl

theorem updatewaves_bottomstart (m : watervolume) (t : ℝ) :
    (updatewaves m t).bottomstart = m.bottomstart := rfl

theorem updatewaves_thickness (m : watervolume) (t : ℝ) :
    (updatewaves m t).thickness = m.thickness := rfl

theorem updatewaves_indices (m : watervolume) (t : ℝ) :
    (updatewaves m t).indices = m.indices := rfl

theorem updatewaves_width (m : watervolume) (t : ℝ) :
    (updatewaves m t).width = m.width := rfl

theorem updatewaves_depth (m : watervolume) (t : ℝ) :
    (updatewaves m t).depth = m.depth := rfl

/-! ### The claims -/

/-- C1: the claim asserts construction with `grid_width < 2` or
`grid_depth < 2` (or non-positive extents/thickness) is rejected with a
configuration error.  The constructor performs no validation at all: at
`gridwidth = griddepth = 1` it silently produces a two-vertex mesh with an
empty index buffer (the normalized grid coordinate `x / (gridwidth - 1)`
divides by zero in the source), rather than reporting any error. -/
theorem claim_C1_no_validation :
    (mkwatervolume 1 1 1 1 1).vertices.length = 2 ∧
    (mkwatervolume 1 1 1 1 1).indices = [] := by
  constructor
  · rw [mkwatervolume_vertices_length]
  · rfl

/-- C4: for `W, D ≥ 2`, construction yields exactly `2·W·D` vertices, an
index count equal to `12·(W−1)·(D−1) + 6·2·(D−1) + 6·2·(W−1)` (hence
divisible by 3), and every index below the vertex count. -/
theorem claim_C4_mesh_counts (W D : ℕ) (w d th : ℝ) (hW : 2 ≤ W) (hD : 2 ≤ D) :
    (mkwatervolume W D w d th).vertices.length = 2 * W * D ∧
    (mkwatervolume W D w d th).indices.length =
      12 * (W - 1) * (D - 1) + 6 * 2 * (D - 1) + 6 * 2 * (W - 1) ∧
    (mkwatervolume W D w d th).indices.length % 3 = 0 ∧
    ∀ i ∈ (mkwatervolume W D w d th).indices, i < 2 * W * D := by
  refine ⟨by rw [mkwatervolume_vertices_length]; ring, ?_, ?_, ?_⟩
  · rw [mkwatervolume_indices, buildIndices_length]
  · rw [mkwatervolume_indices, buildIndices_length]
    have h3 : 12 * (W - 1) * (D - 1) + 6 * 2 * (D - 1) + 6 * 2 * (W - 1) =
        3 * (4 * (W - 1) * (D - 1) + 4 * (D - 1) + 4 * (W - 1)) := by ring
    rw [h3]
    exact Nat.mul_mod_right 3 _
  · intro i hi
    rw [mkwatervolume_indices] at hi
    have hb := buildIndices_bounded W D (by omega) (by omega) i hi
    have h2 : 2 * (W * D) = 2 * W * D := by ring
    omega

/-- Witness for C4 at the spec's end-to-end scenario `W = D = 4`,
`width = depth = 2`, `thickness = 0.5`: 32 vertices and 180 indices. -/
theorem claim_C4_mesh_counts_witness :
    (mkwatervolume 4 4 2 2 0.5).vertices.length = 32 ∧
    (mkwatervolume 4 4 2 2 0.5).indices.length = 180 ∧
    (mkwatervolume 4 4 2 2 0.5).indices.length % 3 = 0 ∧
    ∀ i ∈ (mkwatervolume 4 4 2 2 0.5).indices, i < 32 := by
  obtain ⟨h1, h2, h3, h4⟩ :=
    claim_C4_mesh_counts 4 4 2 2 0.5 (by decide) (by decide)
  exact ⟨h1, h2, h3, h4⟩

/-- C3: in every valid mesh, after `updatewaves(t)` for every `t`
(including `t = 0` and negative `t`), each bottom-surface vertex sits
exactly `thickness` below the corresponding top-surface vertex. -/
theorem claim_C3_bottom_offset (W D : ℕ) (w d th t : ℝ) (gx gz : ℕ)
    (hW : 2 ≤ W) (hD : 2 ≤ D) (hx : gx < W) (hz : gz < D) :
    ((updatewaves (mkwatervolume W D w d th) t).vertices.getD
        (W * D + (gx + gz * W)) default).y =
      ((updatewaves (mkwatervolume W D w d th) t).vertices.getD
        (gx + gz * W) default).y - th := by
  have hcell : gx + gz * W < W * D := cell_lt gx gz W D hx hz
  have hlen := mkwatervolume_vertices_length W D w d th
  have hbot := updatewaves_bottom_y (mkwatervolume W D w d th) t
    (W * D + (gx + gz * W)) default rfl rfl hlen
    (by rw [mkwatervolume_gridwidth, mkwatervolume_griddepth]; omega)
    (by rw [mkwatervolume_gridwidth, mkwatervolume_griddepth]; omega)
  have htop := updatewaves_top_y (mkwatervolume W D w d th) t
    (gx + gz * W) default rfl rfl hlen
    (by rw [mkwatervolume_gridwidth, mkwatervolume_griddepth]; exact hcell)
  rw [mkwatervolume_gridwidth, mkwatervolume_griddepth, mkwatervolume_thickness]
    at hbot
  have hsub : W * D + (gx + gz * W) - W * D = gx + gz * W := by omega
  rw [hsub] at hbot
  rw [hbot, htop]

/-- Witness for C3 at `W = D = 2`, unit extents and thickness, `t = 0`,
cell `(0, 0)`. -/
theorem claim_C3_bottom_offset_witness :
    ((updatewaves (mkwatervolume 2 2 1 1 1) 0).vertices.getD
        (2 * 2 + (0 + 0 * 2)) default).y =
      ((updatewaves (mkwatervolume 2 2 1 1 1) 0).vertices.getD
        (0 + 0 * 2) default).y - 1 :=
  claim_C3_bottom_offset 2 2 1 1 1 0 0 0 (by decide) (by decide) (by decide)
    (by decide)

/-- C2: after `updatewaves(t)` the top-surface elevation at every grid
cell equals the claimed two-wave closed form evaluated at the cell's
stored horizontal position, with `d1 = normalize(1.0, 0.2)`,
`d2 = normalize(0.2, 1.0)` and the time term `s_k·t` subtracted
identically from both components before the dot product. -/
theorem claim_C2_wave_formula (W D : ℕ) (w d th t : ℝ) (gx gz : ℕ)
    (hW : 2 ≤ W) (hD : 2 ≤ D) (hx : gx < W) (hz : gz < D) :
    ((updatewaves (mkwatervolume W D w d th) t).vertices.getD
        (gx + gz * W) default).y =
      0.6 * Real.sin (0.8 *
        ((normalize2 1.0 0.2).1 *
            (((mkwatervolume W D w d th).vertices.getD (gx + gz * W) default).x -
              0.3 * t) +
          (normalize2 1.0 0.2).2 *
            (((mkwatervolume W D w d th).vertices.getD (gx + gz * W) default).z -
              0.3 * t))) +
      0.3 * Real.sin (0.6 *
        ((normalize2 0.2 1.0).1 *
            (((mkwatervolume W D w d th).vertices.getD (gx + gz * W) default).x -
              0.2 * t) +
          (normalize2 0.2 1.0).2 *
            (((mkwatervolume W D w d th).vertices.getD (gx + gz * W) default).z -
              0.2 * t))) := by
  have hcell : gx + gz * W < W * D := cell_lt gx gz W D hx hz
  have htop := updatewaves_top_y (mkwatervolume W D w d th) t
    (gx + gz * W) default rfl rfl (mkwatervolume_vertices_length W D w d th)
    (by rw [mkwatervolume_gridwidth, mkwatervolume_griddepth]; exact hcell)
  rw [htop, waveY]

/-- Witness for C2 at `W = D = 2`, unit extents and thickness, `t = 1`,
cell `(1, 1)`. -/
theorem claim_C2_wave_formula_witness :
    ((updatewaves (mkwatervolume 2 2 1 1 1) 1).vertices.getD
        (1 + 1 * 2) default).y =
      0.6 * Real.sin (0.8 *
        ((normalize2 1.0 0.2).1 *
            (((mkwatervolume 2 2 1 1 1).vertices.getD (1 + 1 * 2) default).x -
              0.3 * 1) +
          (normalize2 1.0 0.2).2 *
            (((mkwatervolume 2 2 1 1 1).vertices.getD (1 + 1 * 2) default).z -
              0.3 * 1))) +
      0.3 * Real.sin (0.6 *
        ((normalize2 0.2 1.0).1 *
            (((mkwatervolume 2 2 1 1 1).vertices.getD (1 + 1 * 2) default).x -
              0.2 * 1) +
          (normalize2 0.2 1.0).2 *
            (((mkwatervolume 2 2 1 1 1).vertices.getD (1 + 1 * 2) default).z -
              0.2 * 1))) :=
  claim_C2_wave_formula 2 2 1 1 1 1 1 1 (by decide) (by decide) (by decide)
    (by decide)

/-- A vertex whose normal components form `normalize3 a b c` with
`b = 1` or `b = -1` has a unit-length normal. -/
theorem unit_of_triple_eq (p : vertex) (a b c : ℝ)
    (h : ((p.nx, p.ny, p.nz) : ℝ × ℝ × ℝ) = normalize3 a b c)
    (hb : b = 1 ∨ b = -1) :
    Real.sqrt (p.nx ^ 2 + p.ny ^ 2 + p.nz ^ 2) = 1 := by
  have e1 : p.nx = (normalize3 a b c).1 := by rw [← h]
  have e2 : p.ny = (normalize3 a b c).2.1 := by
    have h2 := congrArg (fun q : ℝ × ℝ × ℝ => q.2.1) h
    simpa using h2
  have e3 : p.nz = (normalize3 a b c).2.2 := by
    have h3 := congrArg (fun q : ℝ × ℝ × ℝ => q.2.2) h
    simpa using h3
  rw [e1, e2, e3]
  apply normalize3_unit_length
  have hbb : b * b = 1 := by rcases hb with rfl | rfl <;> norm_num
  have hp : (0 : ℝ) < a * a + b * b + c * c := by
    nlinarith [mul_self_nonneg a, mul_self_nonneg c]
  exact hp.ne'

/-- C7: after `updatewaves(t)` for arbitrary `t`, every interior top
vertex has normal `normalize(-dx, 1, -dz)` and every interior bottom
vertex has normal `normalize(dx, -1, dz)`, where `dx`/`dz` are half the
difference of the two neighbouring heights on the same surface, and all
these normals have unit Euclidean length. -/
theorem claim_C7_interior_normals (W D : ℕ) (w d th t : ℝ) (gx gz : ℕ)
    (hW : 2 ≤ W) (hD : 2 ≤ D) (hx1 : 1 ≤ gx) (hx2 : gx < W - 1)
    (hz1 : 1 ≤ gz) (hz2 : gz < D - 1) :
    ((((updatewaves (mkwatervolume W D w d th) t).vertices.getD (gx + gz * W)
        default).nx,
      (((updatewaves (mkwatervolume W D w d th) t).vertices.getD (gx + gz * W)
        default)).ny,
      (((updatewaves (mkwatervolume W D w d th) t).vertices.getD (gx + gz * W)
        default)).nz) : ℝ × ℝ × ℝ) =
      normalize3
        (-((((updatewaves (mkwatervolume W D w d th) t).vertices.getD
              (gx + gz * W + 1) default).y -
            ((updatewaves (mkwatervolume W D w d th) t).vertices.getD
              (gx + gz * W - 1) default).y) * 0.5))
        1
        (-((((updatewaves (mkwatervolume W D w d th) t).vertices.getD
              (gx + gz * W + W) default).y -
            ((updatewaves (mkwatervolume W D w d th) t).vertices.getD
              (gx + gz * W - W) default).y) * 0.5)) ∧
    ((((updatewaves (mkwatervolume W D w d th) t).vertices.getD
        (W * D + (gx + gz * W)) default).nx,
      (((updatewaves (mkwatervolume W D w d th) t).vertices.getD
        (W * D + (gx + gz * W)) default)).ny,
      (((updatewaves (mkwatervolume W D w d th) t).vertices.getD
        (W * D + (gx + gz * W)) default)).nz) : ℝ × ℝ × ℝ) =
      normalize3
        ((((updatewaves (mkwatervolume W D w d th) t).vertices.getD
              (W * D + (gx + gz * W) + 1) default).y -
            ((updatewaves (mkwatervolume W D w d th) t).vertices.getD
              (W * D + (gx + gz * W) - 1) default).y) * 0.5)
        (-1)
        ((((updatewaves (mkwatervolume W D w d th) t).vertices.getD
              (W * D + (gx + gz * W) + W) default).y -
            ((updatewaves (mkwatervolume W D w d th) t).vertices.getD
              (W * D + (gx + gz * W) - W) default).y) * 0.5) ∧
    Real.sqrt
      (((updatewaves (mkwatervolume W D w d th) t).vertices.getD (gx + gz * W)
          default).nx ^ 2 +
        ((updatewaves (mkwatervolume W D w d th) t).vertices.getD (gx + gz * W)
          default).ny ^ 2 +
        ((updatewaves (mkwatervolume W D w d th) t).vertices.getD (gx + gz * W)
          default).nz ^ 2) = 1 ∧
    Real.sqrt
      (((updatewaves (mkwatervolume W D w d th) t).vertices.getD
          (W * D + (gx + gz * W)) default).nx ^ 2 +
        ((updatewaves (mkwatervolume W D w d th) t).vertices.getD
          (W * D + (gx + gz * W)) default).ny ^ 2 +
        ((updatewaves (mkwatervolume W D w d th) t).vertices.getD
          (W * D + (gx + gz * W)) default).nz ^ 2) = 1 := by
  have hgx : gx < W := by omega
  have hgz : gz < D := by omega
  have hmod : (gx + gz * W) % W = gx := by
    rw [Nat.add_mul_mod_self_right, Nat.mod_eq_of_lt hgx]
  have hdiv : (gx + gz * W) / W = gz := by
    rw [Nat.add_mul_div_right gx gz (by omega : 0 < W), Nat.div_eq_of_lt hgx,
      Nat.zero_add]
  have hcell : gx + gz * W < W * D := cell_lt gx gz W D hgx hgz
  have hlen := mkwatervolume_vertices_length W D w d th
  have htopn := updatewaves_top_normal (mkwatervolume W D w d th) t
    (gx + gz * W) default rfl rfl hlen
    (by rw [mkwatervolume_gridwidth, hmod]; exact hx1)
    (by rw [mkwatervolume_gridwidth, hmod]; exact hx2)
    (by rw [mkwatervolume_gridwidth, hdiv]; exact hz1)
    (by rw [mkwatervolume_gridwidth, mkwatervolume_griddepth, hdiv]; exact hz2)
  have hsub : W * D + (gx + gz * W) - W * D = gx + gz * W := by omega
  have hbotn := updatewaves_bottom_normal (mkwatervolume W D w d th) t
    (W * D + (gx + gz * W)) default rfl rfl hlen
    (by rw [mkwatervolume_gridwidth, mkwatervolume_griddepth]; omega)
    (by rw [mkwatervolume_gridwidth, mkwatervolume_griddepth, hsub, hmod]; exact hx1)
    (by rw [mkwatervolume_gridwidth, mkwatervolume_griddepth, hsub, hmod]; exact hx2)
    (by rw [mkwatervolume_gridwidth, mkwatervolume_griddepth, hsub, hdiv]; exact hz1)
    (by rw [mkwatervolume_gridwidth, mkwatervolume_griddepth, hsub, hdiv]; exact hz2)
  rw [mkwatervolume_gridwidth] at htopn hbotn
  exact ⟨htopn, hbotn, unit_of_triple_eq _ _ _ _ htopn (Or.inl rfl),
    unit_of_triple_eq _ _ _ _ hbotn (Or.inr rfl)⟩

/-- Witness for C7 at `W = D = 3`, interior cell `(1, 1)`, `t = 0`: both
updated normals have unit length. -/
theorem claim_C7_interior_normals_witness :
    Real.sqrt
      (((updatewaves (mkwatervolume 3 3 1 1 1) 0).vertices.getD (1 + 1 * 3)
          default).nx ^ 2 +
        ((updatewaves (mkwatervolume 3 3 1 1 1) 0).vertices.getD (1 + 1 * 3)
          default).ny ^ 2 +
        ((updatewaves (mkwatervolume 3 3 1 1 1) 0).vertices.getD (1 + 1 * 3)
          default).nz ^ 2) = 1 ∧
    Real.sqrt
      (((updatewaves (mkwatervolume 3 3 1 1 1) 0).vertices.getD
          (3 * 3 + (1 + 1 * 3)) default).nx ^ 2 +
        ((updatewaves (mkwatervolume 3 3 1 1 1) 0).vertices.getD
          (3 * 3 + (1 + 1 * 3)) default).ny ^ 2 +
        ((updatewaves (mkwatervolume 3 3 1 1 1) 0).vertices.getD
          (3 * 3 + (1 + 1 * 3)) default).nz ^ 2) = 1 :=
  ⟨(claim_C7_interior_normals 3 3 1 1 1 0 1 1 (by decide) (by decide) (by decide)
      (by decide) (by decide) (by decide)).2.2.1,
   (claim_C7_interior_normals 3 3 1 1 1 0 1 1 (by decide) (by decide) (by decide)
      (by decide) (by decide) (by decide)).2.2.2⟩

/-- C8: `updatewaves(t)` leaves every vertex's `x` and `z`, the vertex
count, and the whole index sequence exactly as constructed, and does not
recompute the normals of border-row/border-column vertices on either
surface. -/
theorem claim_C8_frame_effect (W D : ℕ) (w d th t : ℝ) (hW : 2 ≤ W) (hD : 2 ≤ D) :
    (updatewaves (mkwatervolume W D w d th) t).vertices.length =
      (mkwatervolume W D w d th).vertices.length ∧
    (updatewaves (mkwatervolume W D w d th) t).indices =
      (mkwatervolume W D w d th).indices ∧
    (∀ i : ℕ,
      ((updatewaves (mkwatervolume W D w d th) t).vertices.getD i default).x =
        ((mkwatervolume W D w d th).vertices.getD i default).x ∧
      ((updatewaves (mkwatervolume W D w d th) t).vertices.getD i default).z =
        ((mkwatervolume W D w d th).vertices.getD i default).z) ∧
    (∀ gx gz : ℕ, gx < W → gz < D →
      (gx = 0 ∨ gx = W - 1 ∨ gz = 0 ∨ gz = D - 1) →
      ((((updatewaves (mkwatervolume W D w d th) t).vertices.getD (gx + gz * W)
          default).nx,
        ((updatewaves (mkwatervolume W D w d th) t).vertices.getD (gx + gz * W)
          default).ny,
        ((updatewaves (mkwatervolume W D w d th) t).vertices.getD (gx + gz * W)
          default).nz) : ℝ × ℝ × ℝ) =
        (((mkwatervolume W D w d th).vertices.getD (gx + gz * W) default).nx,
         ((mkwatervolume W D w d th).vertices.getD (gx + gz * W) default).ny,
         ((mkwatervolume W D w d th).vertices.getD (gx + gz * W) default).nz) ∧
      ((((updatewaves (mkwatervolume W D w d th) t).vertices.getD
          (W * D + (gx + gz * W)) default).nx,
        ((updatewaves (mkwatervolume W D w d th) t).vertices.getD
          (W * D + (gx + gz * W)) default).ny,
        ((updatewaves (mkwatervolume W D w d th) t).vertices.getD
          (W * D + (gx + gz * W)) default).nz) : ℝ × ℝ × ℝ) =
        (((mkwatervolume W D w d th).vertices.getD (W * D + (gx + gz * W))
          default).nx,
         ((mkwatervolume W D w d th).vertices.getD (W * D + (gx + gz * W))
          default).ny,
         ((mkwatervolume W D w d th).vertices.getD (W * D + (gx + gz * W))
          default).nz)) := by
  refine ⟨updatewaves_vertices_length _ _, rfl, fun i =>
    updatewaves_preserves_xz _ _ i default, fun gx gz hgx hgz hb => ?_⟩
  have hmod : (gx + gz * W) % W = gx := by
    rw [Nat.add_mul_mod_self_right, Nat.mod_eq_of_lt hgx]
  have hdiv : (gx + gz * W) / W = gz := by
    rw [Nat.add_mul_div_right gx gz (by omega : 0 < W), Nat.div_eq_of_lt hgx,
      Nat.zero_add]
  have hcell : gx + gz * W < W * D := cell_lt gx gz W D hgx hgz
  have hsub : W * D + (gx + gz * W) - (W * D) = gx + gz * W := by omega
  constructor
  · have h := updatewaves_normals_unchanged (mkwatervolume W D w d th) t
      (gx + gz * W) default rfl rfl
      (by rw [mkwatervolume_gridwidth, mkwatervolume_griddepth, hmod, hdiv]
          intro hcon
          rcases hb with rfl | rfl | rfl | rfl <;> omega)
      (by rw [mkwatervolume_gridwidth, mkwatervolume_griddepth]
          intro hcon
          omega)
    rw [h.1, h.2.1, h.2.2]
  · have h := updatewaves_normals_unchanged (mkwatervolume W D w d th) t
      (W * D + (gx + gz * W)) default rfl rfl
      (by rw [mkwatervolume_gridwidth, mkwatervolume_griddepth]
          intro hcon
          omega)
      (by rw [mkwatervolume_gridwidth, mkwatervolume_griddepth, hsub, hmod, hdiv]
          intro hcon
          rcases hb with rfl | rfl | rfl | rfl <;> omega)
    rw [h.1, h.2.1, h.2.2]

/-- Witness for C8 at `W = D = 2`, `t = 1`, border cell `(0, 1)`. -/
theorem claim_C8_frame_effect_witness :
    (updatewaves (mkwatervolume 2 2 1 1 1) 1).indices =
      (mkwatervolume 2 2 1 1 1).indices ∧
    ((updatewaves (mkwatervolume 2 2 1 1 1) 1).vertices.getD 3 default).x =
      ((mkwatervolume 2 2 1 1 1).vertices.getD 3 default).x := by
  obtain ⟨h1, h2, h3, h4⟩ :=
    claim_C8_frame_effect 2 2 1 1 1 1 (by decide) (by decide)
  exact ⟨h2, (h3 3).1⟩

/-- C5: on a tick while recording is active the frame is handed to the
sink with the pre-increment counter and the counter is incremented; if
the elapsed simulation time reaches 16.0 the state flips to inactive and
the completion event carries the post-increment frame total and frame
rate `frames / 16`; below 16.0 the state stays active with no
completion. -/
theorem claim_C5_record_tick (s : RecordingState) (tNow : ℚ)
    (hA : s.g_recording = true) :
    (recordTick tNow s).savedFrame = some s.g_recordedFrames ∧
    (recordTick tNow s).state.g_recordedFrames = s.g_recordedFrames + 1 ∧
    (16 ≤ tNow - s.g_recordStartTime →
      (recordTick tNow s).state.g_recording = false ∧
      (recordTick tNow s).completion =
        some (s.g_recordedFrames + 1, ((s.g_recordedFrames : ℚ) + 1) / 16)) ∧
    (tNow - s.g_recordStartTime < 16 →
      (recordTick tNow s).state.g_recording = true ∧
      (recordTick tNow s).completion = none) := by
  refine ⟨?_, ?_, fun hT => ?_, fun hT => ?_⟩
  · simp only [recordTick, hA, if_true]
    split <;> rfl
  · simp only [recordTick, hA, if_true]
    split <;> rfl
  · simp only [recordTick, hA, if_true]
    rw [if_pos (by simpa using hT)]
    refine ⟨rfl, ?_⟩
    simp only [Option.some.injEq, Prod.mk.injEq]
    exact ⟨trivial, by push_cast; ring⟩
  · simp only [recordTick, hA, if_true]
    rw [if_neg (by simpa using not_le.mpr hT)]
    exact ⟨rfl, rfl⟩

/-- Witness for C5: starting from 10 frames recorded at start time 0,
ticking at time 16 completes with 11 frames and rate `11/16`. -/
theorem claim_C5_record_tick_witness :
    (recordTick 16 ⟨true, 0, 10⟩).state.g_recording = false ∧
    (recordTick 16 ⟨true, 0, 10⟩).completion = some (11, (11 : ℚ) / 16) := by
  obtain ⟨h1, h2, h3, h4⟩ := claim_C5_record_tick ⟨true, 0, 10⟩ 16 rfl
  obtain ⟨h5, h6⟩ := h3 (by norm_num)
  refine ⟨h5, ?_⟩
  rw [h6]
  norm_num

/-- C6: the start trigger while inactive activates recording, captures
the current simulation time and zeroes the frame counter; while active
it changes nothing. -/
theorem claim_C6_start_trigger (s : RecordingState) (tNow : ℚ) :
    (s.g_recording = false →
      key_callback_s tNow s =
        { g_recording := true, g_recordStartTime := tNow, g_recordedFrames := 0 }) ∧
    (s.g_recording = true → key_callback_s tNow s = s) := by
  constructor <;> intro h <;> simp [key_callback_s, h]

/-- Witness for C6: starting from inactive and from active states. -/
theorem claim_C6_start_trigger_witness :
    key_callback_s 5 ⟨false, 2, 7⟩ =
      { g_recording := true, g_recordStartTime := 5, g_recordedFrames := 0 } ∧
    key_callback_s 5 ⟨true, 2, 7⟩ = ⟨true, 2, 7⟩ :=
  ⟨(claim_C6_start_trigger ⟨false, 2, 7⟩ 5).1 rfl,
   (claim_C6_start_trigger ⟨true, 2, 7⟩ 5).2 rfl⟩

/-- C9: the frame sink reverses the row order of a bottom-up buffer of
`H` rows (row `r` of the artifact is input row `H - 1 - r`), and the
artifact identifier for sequence number 7 contains the zero-padded
digits `0007`. -/
theorem claim_C9_frame_sink (H : ℕ) (pixels : List (List ℕ))
    (hH : pixels.length = H) :
    flipRows H pixels = pixels.reverse ∧
    (∀ r, r < H → (flipRows H pixels).getD r [] = pixels.getD (H - 1 - r) []) ∧
    frameFilename 7 = "frame_" ++ "0007" ++ ".png" := by
  subst hH
  refine ⟨?_, ?_, by decide⟩
  · apply List.ext_getElem
    · rw [List.length_reverse]
      exact List.length_ofFn _
    · intro i h1 h2
      rw [List.length_reverse] at h2
      simp only [flipRows, List.getElem_ofFn]
      rw [List.getD_eq_getElem _ _ (by omega : pixels.length - 1 - i < pixels.length),
        List.getElem_reverse]
  · intro r hr
    simp only [flipRows]
    rw [List.getD_eq_getElem _ _ (by rw [List.length_ofFn]; exact hr),
      List.getElem_ofFn]

/-- Witness for C9 on a three-row buffer with distinct row markers. -/
theorem claim_C9_frame_sink_witness :
    flipRows 3 [[1], [2], [3]] = [[3], [2], [1]] ∧
    frameFilename 7 = "frame_" ++ "0007" ++ ".png" := by
  obtain ⟨h1, h2, h3⟩ := claim_C9_frame_sink 3 [[1], [2], [3]] rfl
  exact ⟨by rw [h1]; decide, h3⟩

/-! ### History independence of the per-frame update -/

/-- Heights after `updatewaves t2` agree whether or not an earlier
`updatewaves t1` ran first, entry by entry. -/
theorem updatewaves_y_agree (W D : ℕ) (w d th t1 t2 : ℝ) (j : ℕ)
    (hj : j < W * D * 2) :
    ((updatewaves (updatewaves (mkwatervolume W D w d th) t1) t2).vertices.getD j
      default).y =
    ((updatewaves (mkwatervolume W D w d th) t2).vertices.getD j default).y := by
  have hlenF := mkwatervolume_vertices_length W D w d th
  have hlenM : (updatewaves (mkwatervolume W D w d th) t1).vertices.length =
      W * D * 2 := by rw [updatewaves_vertices_length, hlenF]
  by_cases hjtop : j < W * D
  · rw [updatewaves_top_y (updatewaves (mkwatervolume W D w d th) t1) t2 j default
        rfl rfl hlenM hjtop,
      updatewaves_top_y (mkwatervolume W D w d th) t2 j default rfl rfl hlenF hjtop,
      (updatewaves_preserves_xz (mkwatervolume W D w d th) t1 j default).1,
      (updatewaves_preserves_xz (mkwatervolume W D w d th) t1 j default).2]
  · rw [updatewaves_bottom_y (updatewaves (mkwatervolume W D w d th) t1) t2 j default
        rfl rfl hlenM (show W * D ≤ j by omega) (show j < W * D * 2 by omega),
      updatewaves_bottom_y (mkwatervolume W D w d th) t2 j default rfl rfl hlenF
        (show W * D ≤ j by omega) (show j < W * D * 2 by omega)]
    simp only [updatewaves_gridwidth, updatewaves_griddepth, updatewaves_thickness,
      mkwatervolume_gridwidth, mkwatervolume_griddepth, mkwatervolume_thickness]
    rw [(updatewaves_preserves_xz (mkwatervolume W D w d th) t1 (j - W * D) default).1,
      (updatewaves_preserves_xz (mkwatervolume W D w d th) t1 (j - W * D) default).2]

/-- Normals after `updatewaves t2` agree whether or not an earlier
`updatewaves t1` ran first, entry by entry. -/
theorem updatewaves_normals_agree (W D : ℕ) (w d th t1 t2 : ℝ) (j : ℕ)
    (hj : j < W * D * 2) :
    ((((updatewaves (updatewaves (mkwatervolume W D w d th) t1) t2).vertices.getD j
        default).nx,
      (((updatewaves (updatewaves (mkwatervolume W D w d th) t1) t2).vertices.getD j
        default)).ny,
      (((updatewaves (updatewaves (mkwatervolume W D w d th) t1) t2).vertices.getD j
        default)).nz) : ℝ × ℝ × ℝ) =
    ((((updatewaves (mkwatervolume W D w d th) t2).vertices.getD j default).nx,
      (((updatewaves (mkwatervolume W D w d th) t2).vertices.getD j default)).ny,
      (((updatewaves (mkwatervolume W D w d th) t2).vertices.getD j default)).nz) :
        ℝ × ℝ × ℝ) := by
  have hlenF := mkwatervolume_vertices_length W D w d th
  have hlenM : (updatewaves (mkwatervolume W D w d th) t1).vertices.length =
      W * D * 2 := by rw [updatewaves_vertices_length, hlenF]
  by_cases hjtop : j < W * D
  · by_cases hint : 1 ≤ j % W ∧ j % W < W - 1 ∧ 1 ≤ j / W ∧ j / W < D - 1
    · obtain ⟨hi1, hi2, hi3, hi4⟩ := hint
      obtain ⟨ha1, ha2, ha3, ha4, _, _⟩ := interior_arith hi1 hi2 hi3 hi4
      rw [updatewaves_top_normal (updatewaves (mkwatervolume W D w d th) t1) t2 j
          default rfl rfl hlenM hi1 hi2 hi3 hi4,
        updatewaves_top_normal (mkwatervolume W D w d th) t2 j default rfl rfl
          hlenF hi1 hi2 hi3 hi4]
      simp only [updatewaves_gridwidth, mkwatervolume_gridwidth]
      rw [updatewaves_y_agree W D w d th t1 t2 (j + 1) (by omega),
        updatewaves_y_agree W D w d th t1 t2 (j - 1) (by omega),
        updatewaves_y_agree W D w d th t1 t2 (j + W) (by omega),
        updatewaves_y_agree W D w d th t1 t2 (j - W) (by omega)]
    · have hM := updatewaves_normals_unchanged
        (updatewaves (mkwatervolume W D w d th) t1) t2 j default rfl rfl
        (fun hc => hint hc.2)
        (fun hc => absurd hc.1 (show ¬(W * D ≤ j) by omega))
      have hF2 := updatewaves_normals_unchanged (mkwatervolume W D w d th) t2 j
        default rfl rfl (fun hc => hint hc.2)
        (fun hc => absurd hc.1 (show ¬(W * D ≤ j) by omega))
      have hF1 := updatewaves_normals_unchanged (mkwatervolume W D w d th) t1 j
        default rfl rfl (fun hc => hint hc.2)
        (fun hc => absurd hc.1 (show ¬(W * D ≤ j) by omega))
      rw [hM.1, hM.2.1, hM.2.2, hF1.1, hF1.2.1, hF1.2.2,
        hF2.1, hF2.2.1, hF2.2.2]
  · by_cases hint : 1 ≤ (j - W * D) % W ∧ (j - W * D) % W < W - 1 ∧
        1 ≤ (j - W * D) / W ∧ (j - W * D) / W < D - 1
    · obtain ⟨hi1, hi2, hi3, hi4⟩ := hint
      obtain ⟨ha1, ha2, ha3, ha4, _, _⟩ := interior_arith hi1 hi2 hi3 hi4
      rw [updatewaves_bottom_normal (updatewaves (mkwatervolume W D w d th) t1) t2 j
          default rfl rfl hlenM (show W * D ≤ j by omega) hi1 hi2 hi3 hi4,
        updatewaves_bottom_normal (mkwatervolume W D w d th) t2 j default rfl rfl
          hlenF (show W * D ≤ j by omega) hi1 hi2 hi3 hi4]
      simp only [updatewaves_gridwidth, mkwatervolume_gridwidth]
      rw [updatewaves_y_agree W D w d th t1 t2 (j + 1) (by omega),
        updatewaves_y_agree W D w d th t1 t2 (j - 1) (by omega),
        updatewaves_y_agree W D w d th t1 t2 (j + W) (by omega),
        updatewaves_y_agree W D w d th t1 t2 (j - W) (by omega)]
    · have hM := updatewaves_normals_unchanged
        (updatewaves (mkwatervolume W D w d th) t1) t2 j default rfl rfl
        (fun hc => absurd hc.1 (show ¬(j < W * D) by omega))
        (fun hc => hint hc.2.2)
      have hF2 := updatewaves_normals_unchanged (mkwatervolume W D w d th) t2 j
        default rfl rfl (fun hc => absurd hc.1 (show ¬(j < W * D) by omega))
        (fun hc => hint hc.2.2)
      have hF1 := updatewaves_normals_unchanged (mkwatervolume W D w d th) t1 j
        default rfl rfl (fun hc => absurd hc.1 (show ¬(j < W * D) by omega))
        (fun hc => hint hc.2.2)
      rw [hM.1, hM.2.1, hM.2.2, hF1.1, hF1.2.1, hF1.2.2,
        hF2.1, hF2.2.1, hF2.2.2]

/-- C10: the vertex state is history independent: running
`updatewaves(t1)` and then `updatewaves(t2)` on a freshly constructed
mesh leaves exactly the same mesh (positions, normals, indices, and all
parameters) as running `updatewaves(t2)` alone. -/
theorem claim_C10_history_independence (W D : ℕ) (w d th t1 t2 : ℝ)
    (hW : 2 ≤ W) (hD : 2 ≤ D) :
    updatewaves (updatewaves (mkwatervolume W D w d th) t1) t2 =
      updatewaves (mkwatervolume W D w d th) t2 := by
  have hlenF := mkwatervolume_vertices_length W D w d th
  have hlenM : (updatewaves (mkwatervolume W D w d th) t1).vertices.length =
      W * D * 2 := by rw [updatewaves_vertices_length, hlenF]
  have hv : (updatewaves (updatewaves (mkwatervolume W D w d th) t1) t2).vertices =
      (updatewaves (mkwatervolume W D w d th) t2).vertices := by
    apply List.ext_getElem
    · rw [updatewaves_vertices_length, updatewaves_vertices_length, hlenF,
        updatewaves_vertices_length, hlenF]
    · intro i h1 h2
      have hiB : i < W * D * 2 := by
        rw [updatewaves_vertices_length, hlenM] at h1
        exact h1
      rw [← List.getD_eq_getElem _ default h1, ← List.getD_eq_getElem _ default h2]
      have hnn := updatewaves_normals_agree W D w d th t1 t2 i hiB
      simp only [Prod.mk.injEq] at hnn
      apply vertex.ext
      · rw [(updatewaves_preserves_xz (updatewaves (mkwatervolume W D w d th) t1)
            t2 i default).1,
          (updatewaves_preserves_xz (mkwatervolume W D w d th) t1 i default).1,
          (updatewaves_preserves_xz (mkwatervolume W D w d th) t2 i default).1]
      · exact updatewaves_y_agree W D w d th t1 t2 i hiB
      · rw [(updatewaves_preserves_xz (updatewaves (mkwatervolume W D w d th) t1)
            t2 i default).2,
          (updatewaves_preserves_xz (mkwatervolume W D w d th) t1 i default).2,
          (updatewaves_preserves_xz (mkwatervolume W D w d th) t2 i default).2]
      · exact hnn.1
      · exact hnn.2.1
      · exact hnn.2.2
  refine watervolume.ext ?_ ?_ ?_ ?_ ?_ ?_ ?_ hv ?_ <;>
    simp only [updatewaves_gridwidth, updatewaves_griddepth, updatewaves_topstart,
      updatewaves_bottomstart, updatewaves_width, updatewaves_depth,
      updatewaves_thickness, updatewaves_indices]

/-- Witness for C10 at `W = D = 2`, unit extents and thickness,
`t1 = 1`, `t2 = 2`. -/
theorem claim_C10_history_independence_witness :
    updatewaves (updatewaves (mkwatervolume 2 2 1 1 1) 1) 2 =
      updatewaves (mkwatervolume 2 2 1 1 1) 2 :=
  claim_C10_history_independence 2 2 1 1 1 1 2 (by decide) (by decide)

end FluidSim
